import Mathlib

/-!
Verification of the core of `personal_context`:

* `hybrid_search` (src/personal_context/search/hybrid.py) — merging of a
  vector-retrieval candidate set and a full-text candidate set into one
  ranked list;
* `pull_from_upstream` (src/personal_context/sync/pull.py) — the
  reconciliation pass that converges the local store with one upstream
  collection;
* `SyncOrchestrator.sync_collection` / `full_resync`
  (src/personal_context/sync/orchestrator.py) — the per-collection sync
  state machine and the wipe-and-rebuild operation.

Python floats are modelled as exact rationals (`ℚ`), SQL tables as lists of
rows, Python `dict`s as insertion-ordered association lists, and fallible
network calls (`get_document`, `embed`, page listing) as `Except String`
values.  Inert payload columns that the control logic never inspects
(`source_url`, `metadata`, `created_at`, ...) are omitted.
-/

namespace PersonalContext

/-! ### Hybrid search (src/personal_context/search/hybrid.py)

The SQL front half of `hybrid_search` delegates to sqlite-vec and FTS5,
which are external collaborators; the scoring logic consumes the two result
sets.  A row of the vector query is modelled by its content id and
`vec.distance`; a row of the FTS query by its content id and `fts.rank`. -/

structure VecResult where
  id : Nat
  vec_distance : ℚ
deriving Repr, DecidableEq

structure FtsResult where
  id : Nat
  fts_rank : ℚ
deriving Repr, DecidableEq

/-- One value of `results_map` / one element of the returned list.  The
`score` key is absent until the final combine loop; the placeholder value
before that loop is `0`. -/
structure SearchEntry where
  id : Nat
  vec_score : ℚ
  fts_score : ℚ
  score : ℚ
deriving Repr, DecidableEq

/-- Python `results_map[k] = v` on an insertion-ordered dict: overwrite in
place when the key is present, append otherwise. -/
def dictSet (m : List (Nat × SearchEntry)) (k : Nat) (v : SearchEntry) :
    List (Nat × SearchEntry) :=
  if m.any (fun p => p.1 == k) then
    m.map (fun p => if p.1 == k then (p.1, v) else p)
  else
    m ++ [(k, v)]

/-- The body of the `for row in vector_results` loop:
`vec_score = 1.0 / (1.0 + row["vec_distance"])`, `fts_score` initialised
to `0.0`. -/
def addVecRow (m : List (Nat × SearchEntry)) (row : VecResult) :
    List (Nat × SearchEntry) :=
  let vs : ℚ := 1 / (1 + row.vec_distance)
  dictSet m row.id ⟨row.id, vs, 0, 0⟩

/-- The body of the `for row in fts_results` loop:
`fts_score = abs(row["fts_rank"]) / 100.0`; an id already in the map only
has its `fts_score` overwritten, a new id enters with `vec_score = 0.0`. -/
def addFtsRow (m : List (Nat × SearchEntry)) (row : FtsResult) :
    List (Nat × SearchEntry) :=
  let fs : ℚ := |row.fts_rank| / 100
  if m.any (fun p => p.1 == row.id) then
    m.map (fun p => if p.1 == row.id then (p.1, { p.2 with fts_score := fs }) else p)
  else
    m ++ [(row.id, ⟨row.id, 0, fs, 0⟩)]

/-- The combine loop: `result["score"] = 0.6 * vec_score + 0.4 * fts_score`. -/
def combineEntry (e : SearchEntry) : SearchEntry :=
  { e with score := 3/5 * e.vec_score + 2/5 * e.fts_score }

/-- Stable insertion of an entry into a list sorted descending by `score`;
an entry inserted from the left goes before later entries of equal score,
as Python's stable `sorted(..., reverse=True)` keeps earlier elements
first. -/
def insertDesc (e : SearchEntry) : List SearchEntry → List SearchEntry
  | [] => [e]
  | x :: xs => if x.score ≤ e.score then e :: x :: xs else x :: insertDesc e xs

/-- Python `sorted(results_map.values(), key=score, reverse=True)`. -/
def sortByScoreDesc : List SearchEntry → List SearchEntry
  | [] => []
  | x :: xs => insertDesc x (sortByScoreDesc xs)

/-- The scoring half of `hybrid_search`: build `results_map` from the two
retrieval result sets, attach combined scores, sort descending, truncate
to `limit`. -/
def hybrid_search (vector_results : List VecResult) (fts_results : List FtsResult)
    (limit : Nat) : List SearchEntry :=
  let m := vector_results.foldl addVecRow []
  let m := fts_results.foldl addFtsRow m
  let vals := (m.map (fun p => combineEntry p.2))
  (sortByScoreDesc vals).take limit

/-! Score-bound invariants for the hybrid scorer. -/

/-- Both component scores of an entry lie in `[0, 1]`. -/
def entryBounded (e : SearchEntry) : Prop :=
  0 ≤ e.vec_score ∧ e.vec_score ≤ 1 ∧ 0 ≤ e.fts_score ∧ e.fts_score ≤ 1

/-! ### Data model (src/personal_context/db/schema.py)

SQL tables are lists of rows in insertion order.  Only the columns the sync
core reads or writes are modelled; `unixepoch('now')` and `time.time()`
are both modelled by the `now : ℚ` parameter threaded through a pass. -/

/-- A row of the `content` table. -/
structure ContentRow where
  id : Nat
  source_type : String
  source_id : Option String
  collection_id : Option String
  title : String
  content : String
  upstream_doc_id : Option String
  upstream_updated_at : Option ℚ
  updated_at : ℚ
deriving Repr, DecidableEq

/-- A row of the `content_vec` virtual table. -/
structure VecRow where
  content_id : Nat
  embedding : List ℚ
deriving Repr, DecidableEq

/-- A row of the `sync_log` table (columns the sync core writes). -/
structure SyncLogRow where
  collection_id : String
  operation : String
  upstream_doc_id : String
deriving Repr, DecidableEq

/-- A row of the `sync_state` table. -/
structure SyncStateRow where
  collection_id : String
  last_pull_at : Option ℚ
  status : String
  error_message : Option String
  updated_at : ℚ
deriving Repr, DecidableEq

/-- The local database. -/
structure DB where
  content : List ContentRow
  content_vec : List VecRow
  tags : List (Nat × String)
  content_tags : List (Nat × Nat)
  sync_log : List SyncLogRow
  sync_state : List SyncStateRow
  next_content_id : Nat
deriving Repr, DecidableEq

/-- Python truthiness of an optional float: `None` and `0.0` are falsy. -/
def truthyQ : Option ℚ → Bool
  | none => false
  | some x => decide (x ≠ 0)

/-- Python truthiness of an optional string: `None` and `""` are falsy. -/
def truthyStr : Option String → Bool
  | none => false
  | some s => decide (s ≠ "")

/-- The query `SELECT ... FROM content WHERE upstream_doc_id = ?` with `fetchone()`:
the first matching row. -/
def findContentByUpstreamDocId (db : DB) (docId : String) : Option ContentRow :=
  db.content.find? (fun r => r.upstream_doc_id == some docId)

/-- The corrective backfill `UPDATE content SET collection_id = ?,
updated_at = unixepoch('now') WHERE id = ?`. -/
def backfillCollectionId (db : DB) (rowId : Nat) (cid : String) (now : ℚ) : DB :=
  { db with
    content := db.content.map (fun r =>
      if r.id == rowId then { r with collection_id := some cid, updated_at := now } else r) }

/-- The append `INSERT INTO sync_log (collection_id, operation, upstream_doc_id)`. -/
def insertSyncLog (db : DB) (cid op docId : String) : DB :=
  { db with sync_log := db.sync_log ++ [⟨cid, op, docId⟩] }

/-- The write `INSERT OR REPLACE INTO content_vec (content_id, embedding)`: SQLite
deletes a conflicting row and inserts the new one. -/
def insertOrReplaceVec (vecs : List VecRow) (contentId : Nat) (embedding : List ℚ) :
    List VecRow :=
  vecs.filter (fun v => !(v.content_id == contentId)) ++ [⟨contentId, embedding⟩]

/-- The write `INSERT OR REPLACE INTO sync_state ...`: the conflicting row (same
`collection_id` primary key) is deleted and the new row inserted; columns
not named in the INSERT fall back to their defaults (`NULL` for
`last_pull_at` / `error_message`). -/
def insertOrReplaceSyncState (db : DB) (row : SyncStateRow) : DB :=
  { db with
    sync_state := db.sync_state.filter (fun r => !(r.collection_id == row.collection_id)) ++ [row] }

/-- The write `UPDATE sync_state SET status = ?, error_message = ?,
updated_at = unixepoch('now') WHERE collection_id = ?`. -/
def updateSyncStateStatus (db : DB) (cid status : String) (msg : Option String) (now : ℚ) : DB :=
  { db with
    sync_state := db.sync_state.map (fun r =>
      if r.collection_id == cid then
        { r with status := status, error_message := msg, updated_at := now }
      else r) }

/-! ### Upstream interface (src/personal_context/upstream/base.py) -/

/-- A normalized upstream document (both the summaries returned by
`list_documents` and the full documents returned by `get_document`). -/
structure UpstreamDocument where
  id : String
  title : String
  content : String
  updated_at : ℚ
deriving Repr, DecidableEq

/-- One page returned by `list_documents`. -/
structure DocumentPage where
  documents : List UpstreamDocument
  has_more : Bool
deriving Repr, DecidableEq

/-! ### Reconciliation pass (src/personal_context/sync/pull.py)

`list_documents` is modelled by the list of pages the provider returns to
the successive calls at offsets `0, 100, 200, ...`; a call beyond the end
of that list returns an empty page, on which the Python loop breaks.  An
`Except.error` page models `list_documents` raising.  `get_document` and
`embed` are fallible functions; all their effects precede any store write
in the corresponding Python helper, so a failure leaves the store
untouched for that document. -/

/-- Result statistics of a pull sync operation. -/
structure PullResult where
  created : Nat
  updated : Nat
  skipped : Nat
  errors : List String
deriving Repr, DecidableEq

/-- The in-progress state of one reconciliation pass: the database plus
the `created` / `updated` / `skipped` / `errors` accumulators. -/
structure PassAcc where
  db : DB
  created : Nat
  updated : Nat
  skipped : Nat
  errors : List String
deriving Repr, DecidableEq

/-- Helper `_create_local_document`: generate the embedding (fallible), then
insert the content row (picking the next rowid) and its vector. -/
def create_local_document (embed : String → Except String (List ℚ))
    (db : DB) (doc : UpstreamDocument) (cid provider : String) (now : ℚ) :
    Except String DB :=
  (embed doc.content).map (fun embedding =>
    let newId := db.next_content_id
    let row : ContentRow :=
      { id := newId, source_type := provider, source_id := some doc.id,
        collection_id := some cid, title := doc.title, content := doc.content,
        upstream_doc_id := some doc.id, upstream_updated_at := some doc.updated_at,
        updated_at := now }
    { db with
      content := db.content ++ [row],
      content_vec := db.content_vec ++ [⟨newId, embedding⟩],
      next_content_id := newId + 1 })

/-- Helper `_update_local_document`: generate the new embedding (fallible), then
update the content row in place and replace its vector. -/
def update_local_document (embed : String → Except String (List ℚ))
    (db : DB) (contentId : Nat) (doc : UpstreamDocument) (cid : Option String) (now : ℚ) :
    Except String DB :=
  (embed doc.content).map (fun embedding =>
    { db with
      content := db.content.map (fun r =>
        if r.id == contentId then
          { r with title := doc.title, content := doc.content,
                   upstream_updated_at := some doc.updated_at,
                   collection_id := cid, updated_at := now }
        else r),
      content_vec := insertOrReplaceVec db.content_vec contentId embedding })

/-- The body of `for doc_summary in page.documents` after the
early-termination guard: local lookup, `needs_update` classification,
corrective `collection_id` backfill, then fetch + create/update + sync-log
append with per-document error capture. -/
def processSummary (getDoc : String → Except String UpstreamDocument)
    (embed : String → Except String (List ℚ))
    (collection_id provider : String) (now : ℚ)
    (acc : PassAcc) (s : UpstreamDocument) : PassAcc :=
  match findContentByUpstreamDocId acc.db s.id with
  | none =>
    -- no local record: `needs_update = True` and no backfill can apply
    match getDoc s.id with
    | .error e =>
      { acc with errors := acc.errors ++ ["Failed to sync " ++ s.id ++ ": " ++ e] }
    | .ok full_doc =>
      match create_local_document embed acc.db full_doc collection_id provider now with
      | .error e =>
        { acc with errors := acc.errors ++ ["Failed to sync " ++ s.id ++ ": " ++ e] }
      | .ok db2 =>
        { acc with
          db := insertSyncLog db2 collection_id "create" s.id,
          created := acc.created + 1 }
  | some r =>
    -- `needs_update` is the Python
    -- `not local_doc["upstream_updated_at"] or upstream_updated_at > ...`
    let needs_update : Bool :=
      !truthyQ r.upstream_updated_at || decide (r.upstream_updated_at.getD 0 < s.updated_at)
    let db1 :=
      if !truthyStr r.collection_id then backfillCollectionId acc.db r.id collection_id now
      else acc.db
    if !needs_update then
      { acc with db := db1, skipped := acc.skipped + 1 }
    else
      match getDoc s.id with
      | .error e =>
        { acc with db := db1, errors := acc.errors ++ ["Failed to sync " ++ s.id ++ ": " ++ e] }
      | .ok full_doc =>
        match update_local_document embed db1 r.id full_doc (some collection_id) now with
        | .error e =>
          { acc with db := db1, errors := acc.errors ++ ["Failed to sync " ++ s.id ++ ": " ++ e] }
        | .ok db2 =>
          { acc with
            db := insertSyncLog db2 collection_id "update" s.id,
            updated := acc.updated + 1 }

/-- The `for doc_summary in page.documents` loop.  Returns the new
accumulator together with `should_continue`: `false` exactly when the
early-termination guard (`last_pull_at` truthy and the summary's timestamp
`≤ last_pull_at`) fired. -/
def processDocs (getDoc : String → Except String UpstreamDocument)
    (embed : String → Except String (List ℚ))
    (collection_id provider : String) (last_pull_at : Option ℚ) (now : ℚ) :
    PassAcc → List UpstreamDocument → PassAcc × Bool
  | acc, [] => (acc, true)
  | acc, s :: rest =>
    if truthyQ last_pull_at && decide (s.updated_at ≤ last_pull_at.getD 0) then
      (acc, false)
    else
      processDocs getDoc embed collection_id provider last_pull_at now
        (processSummary getDoc embed collection_id provider now acc s) rest

/-- The `while should_continue` pagination loop of `pull_from_upstream`:
a failed page fetch appends a pass-level error and breaks; an empty page
breaks; otherwise the page's summaries are processed and the loop
continues to the next page when neither the early-termination guard fired
nor `has_more` is false. -/
def pullLoop (getDoc : String → Except String UpstreamDocument)
    (embed : String → Except String (List ℚ))
    (collection_id provider : String) (last_pull_at : Option ℚ) (now : ℚ) (limit : Nat) :
    PassAcc → Nat → List (Except String DocumentPage) → PassAcc
  | acc, _, [] => acc
  | acc, offset, p :: rest =>
    match p with
    | .error e =>
      { acc with
        errors := acc.errors ++
          ["Failed to fetch documents at offset " ++ toString offset ++ ": " ++ e] }
    | .ok page =>
      if page.documents.isEmpty then acc
      else
        let r := processDocs getDoc embed collection_id provider last_pull_at now acc page.documents
        if r.2 then
          if page.has_more then
            pullLoop getDoc embed collection_id provider last_pull_at now limit
              r.1 (offset + limit) rest
          else r.1
        else r.1

/-- Function `pull_from_upstream`: run the pagination loop from offset `0` with
page size `100`, then unconditionally `INSERT OR REPLACE` the collection's
`sync_state` row with `last_pull_at = time.time()` (the wall clock `now`
at pass completion) and status `'idle'`. -/
def pull_from_upstream (db : DB) (pages : List (Except String DocumentPage))
    (getDoc : String → Except String UpstreamDocument)
    (embed : String → Except String (List ℚ))
    (collection_id upstream_provider : String)
    (last_pull_at : Option ℚ) (now : ℚ) : DB × PullResult :=
  let acc := pullLoop getDoc embed collection_id upstream_provider last_pull_at now 100
    ⟨db, 0, 0, 0, []⟩ 0 pages
  let db' := insertOrReplaceSyncState acc.db ⟨collection_id, some now, "idle", none, now⟩
  (db', ⟨acc.created, acc.updated, acc.skipped, acc.errors⟩)

/-! ### Orchestrator (src/personal_context/sync/orchestrator.py) -/

/-- Result of one `sync_collection` call. -/
structure SyncResult where
  collection_id : String
  success : Bool
  result : Option PullResult
  error : Option String
deriving Repr, DecidableEq

/-- An upstream client as consumed by the orchestrator: its paged listing
per collection and its `get_document`. -/
structure Provider where
  pages : String → List (Except String DocumentPage)
  getDoc : String → Except String UpstreamDocument

/-- Python `"; ".join(errors)`. -/
def joinSemicolon : List String → String
  | [] => ""
  | [s] => s
  | s :: rest => s ++ "; " ++ joinSemicolon rest

/-- The body of `sync_collection` after the provider lookup and the
already-in-progress guard: mark `syncing` (an `INSERT OR REPLACE` naming
only `collection_id`, `status`, `updated_at` — which resets
`last_pull_at` to `NULL`), re-read `last_pull_at` (coercing a falsy value
to `None`), run the reconciliation pass, and write the final status row:
`error` with the first three error messages joined when the pass collected
errors, `idle` otherwise. -/
def sync_collection_go (db : DB) (client : Provider)
    (embed : String → Except String (List ℚ))
    (collection_id provider_name : String) (now : ℚ) : DB × SyncResult :=
  let db1 := insertOrReplaceSyncState db ⟨collection_id, none, "syncing", none, now⟩
  let last_pull := db1.sync_state.find? (fun r => r.collection_id == collection_id)
  let last_pull_at : Option ℚ :=
    match last_pull with
    | some r => if truthyQ r.last_pull_at then r.last_pull_at else none
    | none => none
  let pr := pull_from_upstream db1 (client.pages collection_id) client.getDoc embed
    collection_id provider_name last_pull_at now
  let db3 :=
    if !pr.2.errors.isEmpty then
      updateSyncStateStatus pr.1 collection_id "error" (some (joinSemicolon (pr.2.errors.take 3))) now
    else
      updateSyncStateStatus pr.1 collection_id "idle" none now
  (db3, ⟨collection_id, pr.2.errors.isEmpty, some pr.2, none⟩)

/-- Method `SyncOrchestrator.sync_collection`: look the provider up in the
registry, reject when the collection's stored status is `'syncing'`
(before any write), otherwise run the guarded sync body. -/
def sync_collection (db : DB) (registry : List (String × Provider))
    (embed : String → Except String (List ℚ))
    (collection_id provider_name : String) (now : ℚ) : DB × SyncResult :=
  match registry.find? (fun p => p.1 == provider_name) with
  | none =>
    (db, ⟨collection_id, false, none,
      some ("Provider '" ++ provider_name ++ "' not registered")⟩)
  | some pr =>
    let state := db.sync_state.find? (fun r => r.collection_id == collection_id)
    match state with
    | some r =>
      if r.status == "syncing" then
        (db, ⟨collection_id, false, none, some "Sync already in progress"⟩)
      else
        sync_collection_go db pr.2 embed collection_id provider_name now
    | none =>
      sync_collection_go db pr.2 embed collection_id provider_name now

/-! ### Full resync (src/personal_context/sync/orchestrator.py) -/

/-- One element of the `collection_results` list built by `full_resync`. -/
inductive CollEntry
  | ok (collection_id provider : String) (created updated errors : Nat)
  | err (collection_id provider : String) (msg : String)
deriving Repr, DecidableEq

/-- Accumulator of the `full_resync` loops: database, running totals,
the `collection_results` list and the per-collection `synced` flag. -/
structure ResyncAcc where
  db : DB
  total_created : Nat
  total_updated : Nat
  total_errors : Nat
  collection_results : List CollEntry
  synced : Bool
deriving Repr, DecidableEq

/-- The `for provider_name in self.upstream_registry.get_providers()` loop
of `full_resync` for one collection: a successful sync records its stats
and breaks; an unsuccessful sync whose result shows `created == 0` and
`updated == 0` moves on silently; any other failure records an error entry
and moves on. -/
def resyncTryProviders (registry : List (String × Provider))
    (embed : String → Except String (List ℚ))
    (collection_id : String) (now : ℚ) :
    ResyncAcc → List String → ResyncAcc
  | acc, [] => acc
  | acc, provider_name :: rest =>
    let pr := sync_collection acc.db registry embed collection_id provider_name now
    match pr.2.result with
    | some r =>
      if pr.2.success then
        { acc with
          db := pr.1,
          collection_results := acc.collection_results ++
            [.ok collection_id provider_name r.created r.updated r.errors.length],
          total_created := acc.total_created + r.created,
          total_updated := acc.total_updated + r.updated,
          total_errors := acc.total_errors + r.errors.length,
          synced := true }
      else if r.created == 0 && r.updated == 0 then
        resyncTryProviders registry embed collection_id now { acc with db := pr.1 } rest
      else
        resyncTryProviders registry embed collection_id now
          { acc with
            db := pr.1,
            collection_results := acc.collection_results ++
              [.err collection_id provider_name (pr.2.error.getD "Unknown error")],
            total_errors := acc.total_errors + 1 } rest
    | none =>
      resyncTryProviders registry embed collection_id now
        { acc with
          db := pr.1,
          collection_results := acc.collection_results ++
            [.err collection_id provider_name (pr.2.error.getD "Unknown error")],
          total_errors := acc.total_errors + 1 } rest

/-- The per-collection loop of `full_resync`: each collection starts with
a fresh `synced = false` flag and tries every registered provider name in
registration order. -/
def resyncCollections (registry : List (String × Provider))
    (embed : String → Except String (List ℚ)) (now : ℚ) :
    ResyncAcc → List String → ResyncAcc
  | acc, [] => acc
  | acc, cid :: rest =>
    let acc1 := resyncTryProviders registry embed cid now { acc with synced := false }
      (registry.map Prod.fst)
    resyncCollections registry embed now acc1 rest

/-- The wipe step of `full_resync`: `DELETE FROM` content_tags, tags,
content_vec, content, sync_log, sync_state (rowid sequence retained). -/
def wipeDB (db : DB) : DB :=
  { db with content_tags := [], tags := [], content_vec := [], content := [],
            sync_log := [], sync_state := [] }

/-- Statistics returned by `full_resync`. -/
structure ResyncOut where
  db : DB
  collections_synced : Nat
  total_created : Nat
  total_updated : Nat
  total_errors : Nat
  collection_results : List CollEntry
deriving Repr, DecidableEq

/-- Method `SyncOrchestrator.full_resync` on an explicitly given collection list:
wipe all local data, then resync every target collection from every
registered provider. -/
def full_resync (db : DB) (registry : List (String × Provider))
    (embed : String → Except String (List ℚ))
    (collection_ids : List String) (now : ℚ) : ResyncOut :=
  let db0 := wipeDB db
  let acc := resyncCollections registry embed now ⟨db0, 0, 0, 0, [], false⟩ collection_ids
  ⟨acc.db, collection_ids.length, acc.total_created, acc.total_updated,
    acc.total_errors, acc.collection_results⟩

/-! ### Auxiliary notions used by the specification statements -/

/-- The checkpoint stored for a collection: the `last_pull_at` column of
its `sync_state` row, `none` when no row exists. -/
def storedCheckpoint (db : DB) (cid : String) : Option ℚ :=
  match db.sync_state.find? (fun r => r.collection_id == cid) with
  | some r => r.last_pull_at
  | none => none

/-- The document summaries a page contributes to the listing (an errored
page fetch contributes none). -/
def pageDocs : Except String DocumentPage → List UpstreamDocument
  | .ok p => p.documents
  | .error _ => []

/-- The provider's full listing: the concatenation of its pages. -/
def docsOf (pages : List (Except String DocumentPage)) : List UpstreamDocument :=
  (pages.map pageDocs).flatten

/-- A well-formed paginated listing: every fetch succeeds, every page is
nonempty, and every page but the last reports `has_more`. -/
def wfPages : List (Except String DocumentPage) → Bool
  | [] => true
  | [Except.ok p] => !p.documents.isEmpty
  | Except.ok p :: rest => !p.documents.isEmpty && p.has_more && wfPages rest
  | _ => false

/-- A reconciliation pass restricted to an explicit list of summaries:
process each in order, then write the pass-end checkpoint row.  Used to
state which summaries a paginated pass actually examines. -/
def reconcileDocs (db : DB) (docs : List UpstreamDocument)
    (gdoc : String → Except String UpstreamDocument)
    (embed : String → Except String (List ℚ))
    (cid prov : String) (now : ℚ) : DB × PullResult :=
  let acc := List.foldl (processSummary gdoc embed cid prov now) ⟨db, 0, 0, 0, []⟩ docs
  (insertOrReplaceSyncState acc.db ⟨cid, some now, "idle", none, now⟩,
   ⟨acc.created, acc.updated, acc.skipped, acc.errors⟩)

/-- The listing is sorted descending by `updated_at`. -/
def sortedDescB : List UpstreamDocument → Bool
  | [] => true
  | [_] => true
  | a :: b :: rest => decide (b.updated_at ≤ a.updated_at) && sortedDescB (b :: rest)

/-! ### Concrete fixtures for witnesses and counterexamples -/

/-- An empty local database (the rowid sequence starts at `1`). -/
def emptyDB : DB := ⟨[], [], [], [], [], [], 1⟩

/-- An embedding client that always succeeds. -/
def okEmbed : String → Except String (List ℚ) := fun _ => Except.ok [1]

/-- A `get_document` that is never reached. -/
def noDoc : String → Except String UpstreamDocument := fun _ => Except.error "unused"

def docA : UpstreamDocument := ⟨"1", "t1", "body1", 40⟩
def docB : UpstreamDocument := ⟨"2", "t2", "body2", 30⟩
def docC : UpstreamDocument := ⟨"3", "t3", "body3", 20⟩
def docD : UpstreamDocument := ⟨"4", "t4", "body4", 10⟩

/-- A listing of four brand-new documents in one page, descending. -/
def fourDocPages : List (Except String DocumentPage) :=
  [Except.ok ⟨[docA, docB, docC, docD], false⟩]

/-- A `get_document` for the four-document fixture: fetching document `"3"`
fails, the others succeed. -/
def fourDocGetDoc : String → Except String UpstreamDocument := fun i =>
  if i == "1" then Except.ok docA
  else if i == "2" then Except.ok docB
  else if i == "3" then Except.error "boom"
  else if i == "4" then Except.ok docD
  else Except.error "not found"

/-- A `get_document` for the four-document fixture with no failure. -/
def fourDocGetDocOk : String → Except String UpstreamDocument := fun i =>
  if i == "1" then Except.ok docA
  else if i == "2" then Except.ok docB
  else if i == "3" then Except.ok docC
  else if i == "4" then Except.ok docD
  else Except.error "not found"

/-- A listing of three brand-new documents in one page, descending. -/
def threeDocPages : List (Except String DocumentPage) :=
  [Except.ok ⟨[docA, docB, docC], false⟩]

/-- A provider whose listing for every collection is empty. -/
def provA : Provider := ⟨fun _ => [], fun _ => Except.error "unused"⟩

/-- A document owned by provider `B`. -/
def docX : UpstreamDocument := ⟨"x", "tx", "bodyx", 3⟩

/-- A provider owning one document in every collection. -/
def provB : Provider :=
  ⟨fun _ => [Except.ok ⟨[docX], false⟩],
   fun i => if i == "x" then Except.ok docX else Except.error "not found"⟩

/-- A registry with the empty provider registered before the owning one. -/
def resyncRegistry : List (String × Provider) := [("A", provA), ("B", provB)]

/-- A database whose collection `"c"` is currently marked `syncing`. -/
def syncingDB : DB :=
  { emptyDB with sync_state := [⟨"c", some 2, "syncing", none, 2⟩] }

/-- A document whose upstream timestamp is `≤ 0`. -/
def negDoc : UpstreamDocument := ⟨"n", "tn", "bn", -1⟩

def negDocPages : List (Except String DocumentPage) := [Except.ok ⟨[negDoc], false⟩]

def negDocGetDoc : String → Except String UpstreamDocument := fun i =>
  if i == "n" then Except.ok negDoc else Except.error "not found"

/-- A document whose upstream timestamp is exactly `0`. -/
def zeroDoc : UpstreamDocument := ⟨"z", "tz", "bz", 0⟩

def zeroDocPages : List (Except String DocumentPage) := [Except.ok ⟨[zeroDoc], false⟩]

def zeroDocGetDoc : String → Except String UpstreamDocument := fun i =>
  if i == "z" then Except.ok zeroDoc else Except.error "not found"

/-- A database holding document `"z"` with `upstream_updated_at = 0` (a
falsy stored timestamp) and a filled `collection_id`. -/
def zeroTsDB : DB :=
  { emptyDB with
    content := [⟨1, "outline", some "z", some "c", "tz", "bz", some "z", some 0, 2⟩],
    content_vec := [⟨1, [1]⟩],
    next_content_id := 2 }

/-- A one-document listing used by the idempotence witness. -/
def oneDocPages : List (Except String DocumentPage) :=
  [Except.ok ⟨[⟨"d", "td", "bd", 3⟩], false⟩]

def oneDocGetDoc : String → Except String UpstreamDocument := fun i =>
  if i == "d" then Except.ok ⟨"d", "td", "bd", 3⟩ else Except.error "not found"

/-! ### Theorems -/

theorem dictSet_bounded {m : List (Nat × SearchEntry)} {k : Nat} {v : SearchEntry}
    (hm : ∀ p ∈ m, entryBounded p.2) (hv : entryBounded v) :
    ∀ p ∈ dictSet m k v, entryBounded p.2 := by
  intro p hp
  unfold dictSet at hp
  split at hp
  · rcases List.mem_map.mp hp with ⟨q, hq, rfl⟩
    by_cases hqk : q.1 == k
    · simpa [hqk] using hv
    · simpa [hqk] using hm q hq
  · rcases List.mem_append.mp hp with hp | hp
    · exact hm p hp
    · have hpv : p = (k, v) := by simpa using hp
      subst hpv; exact hv

theorem addVecRow_bounded {m : List (Nat × SearchEntry)} {row : VecResult}
    (hm : ∀ p ∈ m, entryBounded p.2) (hd : 0 ≤ row.vec_distance) :
    ∀ p ∈ addVecRow m row, entryBounded p.2 := by
  have h1 : (0 : ℚ) < 1 + row.vec_distance := by linarith
  refine dictSet_bounded hm ?_
  refine ⟨le_of_lt (div_pos one_pos h1), ?_, le_refl 0, by norm_num⟩
  rw [div_le_one h1]
  linarith

theorem addFtsRow_bounded {m : List (Nat × SearchEntry)} {row : FtsResult}
    (hm : ∀ p ∈ m, entryBounded p.2) (hr : |row.fts_rank| ≤ 100) :
    ∀ p ∈ addFtsRow m row, entryBounded p.2 := by
  have hfs0 : (0 : ℚ) ≤ |row.fts_rank| / 100 := by positivity
  have hfs1 : |row.fts_rank| / 100 ≤ 1 := by
    rw [div_le_one (by norm_num : (0:ℚ) < 100)]; exact hr
  intro p hp
  unfold addFtsRow at hp
  split at hp
  · rcases List.mem_map.mp hp with ⟨q, hq, rfl⟩
    by_cases hqk : q.1 == row.id
    · have hb := hm q hq
      simp only [hqk, if_true]
      exact ⟨hb.1, hb.2.1, hfs0, hfs1⟩
    · simpa [hqk] using hm q hq
  · rcases List.mem_append.mp hp with hp | hp
    · exact hm p hp
    · have hpv : p = (row.id, ⟨row.id, 0, |row.fts_rank| / 100, 0⟩) := by simpa using hp
      subst hpv; exact ⟨le_refl 0, by norm_num, hfs0, hfs1⟩

theorem foldl_addVecRow_bounded (rows : List VecResult)
    (hd : ∀ r ∈ rows, 0 ≤ r.vec_distance) :
    ∀ m : List (Nat × SearchEntry), (∀ p ∈ m, entryBounded p.2) →
      ∀ p ∈ rows.foldl addVecRow m, entryBounded p.2 := by
  induction rows with
  | nil => intro m hm; simpa using hm
  | cons r rs ih =>
    intro m hm
    simp only [List.foldl_cons]
    exact ih (fun r' hr' => hd r' (List.mem_cons_of_mem _ hr'))
      (addVecRow m r) (addVecRow_bounded hm (hd r (List.mem_cons_self _ _)))

theorem foldl_addFtsRow_bounded (rows : List FtsResult)
    (hr : ∀ r ∈ rows, |r.fts_rank| ≤ 100) :
    ∀ m : List (Nat × SearchEntry), (∀ p ∈ m, entryBounded p.2) →
      ∀ p ∈ rows.foldl addFtsRow m, entryBounded p.2 := by
  induction rows with
  | nil => intro m hm; simpa using hm
  | cons r rs ih =>
    intro m hm
    simp only [List.foldl_cons]
    exact ih (fun r' hr' => hr r' (List.mem_cons_of_mem _ hr'))
      (addFtsRow m r) (addFtsRow_bounded hm (hr r (List.mem_cons_self _ _)))

theorem mem_insertDesc {e x : SearchEntry} {l : List SearchEntry}
    (h : x ∈ insertDesc e l) : x = e ∨ x ∈ l := by
  induction l with
  | nil => simp only [insertDesc, List.mem_singleton] at h; exact Or.inl h
  | cons y ys ih =>
    unfold insertDesc at h
    by_cases hc : y.score ≤ e.score
    · simp only [hc, if_true, List.mem_cons] at h
      rcases h with h | h | h
      · exact Or.inl h
      · exact Or.inr (by simp [h])
      · exact Or.inr (List.mem_cons_of_mem _ h)
    · simp only [hc, if_false, List.mem_cons] at h
      rcases h with h | h
      · exact Or.inr (by simp [h])
      · rcases ih h with h' | h'
        · exact Or.inl h'
        · exact Or.inr (List.mem_cons_of_mem _ h')

theorem mem_sortByScoreDesc {x : SearchEntry} {l : List SearchEntry}
    (h : x ∈ sortByScoreDesc l) : x ∈ l := by
  induction l with
  | nil => simpa [sortByScoreDesc] using h
  | cons y ys ih =>
    unfold sortByScoreDesc at h
    rcases mem_insertDesc h with h' | h'
    · simp [h']
    · exact List.mem_cons_of_mem _ (ih h')

/-- C1, counterexample.  A candidate whose FTS rank has absolute value
above 100 (here `rank = -200`, giving keyword score `2`) combined with a
perfect vector match (distance `0`, vector score `1`) is returned by
`hybrid_search` with combined score `0.6 * 1 + 0.4 * 2 = 1.4 > 1`: the
keyword-side score is not bounded by `1` for arbitrary rank values, so the
combined score can exceed `1`. -/
theorem hybrid_search_score_above_one :
    hybrid_search [⟨1, 0⟩] [⟨1, -200⟩] 10 =
      [⟨1, 1, 2, 7/5⟩] ∧ (1 : ℚ) < 7/5 := by
  constructor
  · norm_num [hybrid_search, addVecRow, addFtsRow, dictSet, combineEntry,
      sortByScoreDesc, insertDesc]
  · norm_num

/-- C1, amended.  For any retrieval results whose vector distances are
non-negative and whose FTS ranks satisfy `|rank| ≤ 100`, every candidate
returned by `hybrid_search` has combined score in `[0, 1]`: the vector-side
score `1/(1+distance)` is always in `[0,1]` for non-negative distance, the
keyword-side score `|rank|/100` is in `[0,1]` exactly when `|rank| ≤ 100`,
and the weights `0.6` and `0.4` sum to `1`. -/
theorem hybrid_search_score_bounded
    (vector_results : List VecResult) (fts_results : List FtsResult) (limit : Nat)
    (hd : ∀ r ∈ vector_results, 0 ≤ r.vec_distance)
    (hr : ∀ r ∈ fts_results, |r.fts_rank| ≤ 100) :
    ∀ e ∈ hybrid_search vector_results fts_results limit,
      0 ≤ e.score ∧ e.score ≤ 1 := by
  intro e he
  unfold hybrid_search at he
  have he1 := List.mem_of_mem_take he
  have he2 := mem_sortByScoreDesc he1
  rcases List.mem_map.mp he2 with ⟨p, hp, rfl⟩
  have hb : entryBounded p.2 :=
    foldl_addFtsRow_bounded fts_results hr _
      (foldl_addVecRow_bounded vector_results hd [] (by intro q hq; cases hq)) p hp
  obtain ⟨h1, h2, h3, h4⟩ := hb
  unfold combineEntry
  constructor
  · simp only []
    nlinarith
  · simp only []
    nlinarith

/-- Witness for `hybrid_search_score_bounded` at a concrete input: one
vector candidate at distance `1/4` and one FTS candidate (same id) at rank
`-50` produce the returned entry with scores `4/5`, `1/2`, `17/25`, and
the theorem bounds its combined score. -/
theorem hybrid_search_score_bounded_witness :
    (⟨1, 4/5, 1/2, 17/25⟩ : SearchEntry) ∈ hybrid_search [⟨1, 1/4⟩] [⟨1, -50⟩] 10 ∧
    0 ≤ (⟨1, 4/5, 1/2, 17/25⟩ : SearchEntry).score ∧
    (⟨1, 4/5, 1/2, 17/25⟩ : SearchEntry).score ≤ 1 := by
  have hmem : (⟨1, 4/5, 1/2, 17/25⟩ : SearchEntry) ∈
      hybrid_search [⟨1, 1/4⟩] [⟨1, -50⟩] 10 := by
    norm_num [hybrid_search, addVecRow, addFtsRow, dictSet, combineEntry,
      sortByScoreDesc, insertDesc]
  have hb := hybrid_search_score_bounded [⟨1, 1/4⟩] [⟨1, -50⟩] 10
    (by intro r hrr; fin_cases hrr; norm_num)
    (by intro r hrr; fin_cases hrr; norm_num)
    _ hmem
  exact ⟨hmem, hb.1, hb.2⟩

/-! #### Inversion and frame lemmas for the reconciliation pass -/

theorem create_local_document_ok {embed : String → Except String (List ℚ)}
    {db : DB} {doc : UpstreamDocument} {cid provider : String} {now : ℚ} {db2 : DB}
    (h : create_local_document embed db doc cid provider now = Except.ok db2) :
    ∃ emb, embed doc.content = Except.ok emb ∧
      db2 = { db with
        content := db.content ++
          [⟨db.next_content_id, provider, some doc.id, some cid, doc.title,
            doc.content, some doc.id, some doc.updated_at, now⟩],
        content_vec := db.content_vec ++ [⟨db.next_content_id, emb⟩],
        next_content_id := db.next_content_id + 1 } := by
  unfold create_local_document at h
  cases he : embed doc.content with
  | error msg => rw [he] at h; exact absurd h (by simp [Except.map])
  | ok emb =>
    rw [he] at h
    simp only [Except.map, Except.ok.injEq] at h
    exact ⟨emb, rfl, h.symm⟩

theorem update_local_document_ok {embed : String → Except String (List ℚ)}
    {db : DB} {contentId : Nat} {doc : UpstreamDocument} {cid : Option String}
    {now : ℚ} {db2 : DB}
    (h : update_local_document embed db contentId doc cid now = Except.ok db2) :
    ∃ emb, embed doc.content = Except.ok emb ∧
      db2 = { db with
        content := db.content.map (fun r =>
          if r.id == contentId then
            { r with title := doc.title, content := doc.content,
                     upstream_updated_at := some doc.updated_at,
                     collection_id := cid, updated_at := now }
          else r),
        content_vec := insertOrReplaceVec db.content_vec contentId emb } := by
  unfold update_local_document at h
  cases he : embed doc.content with
  | error msg => rw [he] at h; exact absurd h (by simp [Except.map])
  | ok emb =>
    rw [he] at h
    simp only [Except.map, Except.ok.injEq] at h
    exact ⟨emb, rfl, h.symm⟩

/-- The tables the reconciliation loop never touches: `tags`,
`content_tags` and `sync_state`. -/
def sameAux (a b : DB) : Prop :=
  a.tags = b.tags ∧ a.content_tags = b.content_tags ∧ a.sync_state = b.sync_state

theorem sameAux_refl (a : DB) : sameAux a a := ⟨rfl, rfl, rfl⟩

theorem sameAux_trans {a b c : DB} (h1 : sameAux a b) (h2 : sameAux b c) : sameAux a c :=
  ⟨h1.1.trans h2.1, h1.2.1.trans h2.2.1, h1.2.2.trans h2.2.2⟩

theorem sameAux_backfill (db : DB) (rowId : Nat) (cid : String) (now : ℚ) :
    sameAux (backfillCollectionId db rowId cid now) db := ⟨rfl, rfl, rfl⟩

theorem sameAux_insertSyncLog (db : DB) (cid op docId : String) :
    sameAux (insertSyncLog db cid op docId) db := ⟨rfl, rfl, rfl⟩

theorem sameAux_create {embed : String → Except String (List ℚ)}
    {db : DB} {doc : UpstreamDocument} {cid provider : String} {now : ℚ} {db2 : DB}
    (h : create_local_document embed db doc cid provider now = Except.ok db2) :
    sameAux db2 db := by
  obtain ⟨emb, _, rfl⟩ := create_local_document_ok h
  exact ⟨rfl, rfl, rfl⟩

theorem sameAux_update {embed : String → Except String (List ℚ)}
    {db : DB} {contentId : Nat} {doc : UpstreamDocument} {cid : Option String}
    {now : ℚ} {db2 : DB}
    (h : update_local_document embed db contentId doc cid now = Except.ok db2) :
    sameAux db2 db := by
  obtain ⟨emb, _, rfl⟩ := update_local_document_ok h
  exact ⟨rfl, rfl, rfl⟩

theorem processSummary_frame (gdoc : String → Except String UpstreamDocument)
    (embed : String → Except String (List ℚ)) (cid prov : String) (now : ℚ)
    (acc : PassAcc) (s : UpstreamDocument) :
    sameAux (processSummary gdoc embed cid prov now acc s).db acc.db := by
  have hdb1 : ∀ b : Bool, ∀ rid : Nat,
      sameAux (if b then backfillCollectionId acc.db rid cid now else acc.db) acc.db := by
    intro b rid
    split
    · exact sameAux_backfill _ _ _ _
    · exact sameAux_refl _
  unfold processSummary
  split
  · split
    · exact sameAux_refl _
    · split
      · exact sameAux_refl _
      · next db2 heq =>
        exact sameAux_trans (sameAux_insertSyncLog _ _ _ _) (sameAux_create heq)
  · next r _ =>
    dsimp only
    split
    · exact hdb1 _ _
    · split
      · exact hdb1 _ _
      · split
        · exact hdb1 _ _
        · next db2 heq =>
          exact sameAux_trans
            (sameAux_trans (sameAux_insertSyncLog _ _ _ _) (sameAux_update heq))
            (hdb1 _ _)

theorem processDocs_frame (gdoc : String → Except String UpstreamDocument)
    (embed : String → Except String (List ℚ)) (cid prov : String)
    (lpa : Option ℚ) (now : ℚ) (acc : PassAcc) (docs : List UpstreamDocument) :
    sameAux (processDocs gdoc embed cid prov lpa now acc docs).1.db acc.db := by
  induction docs generalizing acc with
  | nil => exact sameAux_refl _
  | cons s rest ih =>
    unfold processDocs
    split
    · exact sameAux_refl _
    · exact sameAux_trans (ih _) (processSummary_frame gdoc embed cid prov now acc s)

theorem pullLoop_frame (gdoc : String → Except String UpstreamDocument)
    (embed : String → Except String (List ℚ)) (cid prov : String)
    (lpa : Option ℚ) (now : ℚ) (limit : Nat) (acc : PassAcc) (off : Nat)
    (pages : List (Except String DocumentPage)) :
    sameAux (pullLoop gdoc embed cid prov lpa now limit acc off pages).db acc.db := by
  induction pages generalizing acc off with
  | nil => exact sameAux_refl _
  | cons p rest ih =>
    unfold pullLoop
    cases p with
    | error e => exact sameAux_refl _
    | ok page =>
      dsimp only
      by_cases hempty : page.documents.isEmpty
      · rw [if_pos hempty]; exact sameAux_refl _
      · rw [if_neg hempty]
        have hframe := processDocs_frame gdoc embed cid prov lpa now acc page.documents
        split
        · split
          · exact sameAux_trans (ih _ _) hframe
          · exact hframe
        · exact hframe

theorem find?_filter_beq_none (l : List SyncStateRow) (cid : String) :
    (l.filter (fun r => !(r.collection_id == cid))).find?
      (fun r => r.collection_id == cid) = none := by
  induction l with
  | nil => rfl
  | cons a l ih =>
    by_cases h : a.collection_id == cid
    · simpa [List.filter_cons, h] using ih
    · simpa [List.filter_cons, h, List.find?_cons] using ih

theorem insertOrReplaceSyncState_find (db : DB) (row : SyncStateRow) :
    (insertOrReplaceSyncState db row).sync_state.find?
      (fun r => r.collection_id == row.collection_id) = some row := by
  unfold insertOrReplaceSyncState
  rw [List.find?_append, find?_filter_beq_none]
  simp [List.find?_cons]

/-- After any pass, the collection's `sync_state` row is the checkpoint
row written at pass end. -/
theorem pull_sync_state_find_aux (db : DB)
    (pages : List (Except String DocumentPage))
    (gdoc : String → Except String UpstreamDocument)
    (embed : String → Except String (List ℚ))
    (cid prov : String) (lpa : Option ℚ) (now : ℚ) :
    (pull_from_upstream db pages gdoc embed cid prov lpa now).1.sync_state.find?
      (fun r => r.collection_id == cid) = some ⟨cid, some now, "idle", none, now⟩ := by
  unfold pull_from_upstream
  exact insertOrReplaceSyncState_find _ ⟨cid, some now, "idle", none, now⟩

/-! #### C5: the checkpoint is unconditionally set to the wall clock -/

/-- C5.  At the end of every reconciliation pass — for any page list,
including one whose head or tail is a failed page fetch, i.e. a pass
aborted early by a page-fetch error — the collection's `sync_state` row is
written with `last_pull_at = now`, the wall-clock time at pass completion
(the `time.time()` argument), not any function of the upstream
`updated_at` values observed. -/
theorem pull_checkpoint_is_wall_clock (db : DB)
    (pages : List (Except String DocumentPage))
    (gdoc : String → Except String UpstreamDocument)
    (embed : String → Except String (List ℚ))
    (cid prov : String) (lpa : Option ℚ) (now : ℚ) :
    (pull_from_upstream db pages gdoc embed cid prov lpa now).1.sync_state.find?
      (fun r => r.collection_id == cid) = some ⟨cid, some now, "idle", none, now⟩ :=
  pull_sync_state_find_aux db pages gdoc embed cid prov lpa now

/-! #### C2: which tables a reconciliation pass writes -/

/-- C2, counterexample.  The Reconciler does write the `SyncState` table:
a pass over an empty listing on an empty database leaves a `sync_state`
row behind (the pass-end checkpoint write at pull.py lines 150-157),
refuting "it never writes the SyncState table". -/
theorem pull_writes_sync_state :
    (pull_from_upstream emptyDB [] noDoc okEmbed "c" "outline" none 5).1.sync_state =
      [⟨"c", some 5, "idle", none, 5⟩] ∧ emptyDB.sync_state = [] := by
  constructor
  · rfl
  · rfl

/-- C2, amended.  During every reconciliation pass, `pull_from_upstream`
writes only `ContentRecord` (`content`), `EmbeddingVector` (`content_vec`),
`SyncLogEntry` (`sync_log`) rows, and — at pass end — the collection's own
`SyncState` row: the `tags` and `content_tags` tables are untouched, and
the final `sync_state` table is the input one with exactly the pass's own
collection row replaced by the checkpoint row. -/
theorem pull_table_frame (db : DB)
    (pages : List (Except String DocumentPage))
    (gdoc : String → Except String UpstreamDocument)
    (embed : String → Except String (List ℚ))
    (cid prov : String) (lpa : Option ℚ) (now : ℚ) :
    (pull_from_upstream db pages gdoc embed cid prov lpa now).1.tags = db.tags ∧
    (pull_from_upstream db pages gdoc embed cid prov lpa now).1.content_tags =
      db.content_tags ∧
    (pull_from_upstream db pages gdoc embed cid prov lpa now).1.sync_state =
      db.sync_state.filter (fun r => !(r.collection_id == cid)) ++
        [⟨cid, some now, "idle", none, now⟩] := by
  have hframe := pullLoop_frame gdoc embed cid prov lpa now 100 ⟨db, 0, 0, 0, []⟩ 0 pages
  unfold pull_from_upstream
  simp only [insertOrReplaceSyncState]
  exact ⟨hframe.1, hframe.2.1, by rw [hframe.2.2]⟩

/-! #### C6: the already-in-progress guard -/

/-- C6.  A `sync_collection` call on a collection whose stored status is
`'syncing'` is rejected before any write: it returns the input database
unchanged (so no table row is written and the Reconciler — which always
rewrites the `sync_state` row — was not invoked) together with an
unsuccessful result carrying exactly the message "Sync already in
progress" and no pass statistics. -/
theorem sync_collection_rejects_in_progress (db : DB)
    (registry : List (String × Provider))
    (embed : String → Except String (List ℚ))
    (cid pname : String) (now : ℚ) (p : String × Provider) (r : SyncStateRow)
    (hreg : registry.find? (fun q => q.1 == pname) = some p)
    (hstate : db.sync_state.find? (fun q => q.collection_id == cid) = some r)
    (hsyncing : r.status = "syncing") :
    sync_collection db registry embed cid pname now =
      (db, ⟨cid, false, none, some "Sync already in progress"⟩) := by
  unfold sync_collection
  rw [hreg]
  simp only [hstate, hsyncing, beq_self_eq_true, if_true]

/-- Witness for `sync_collection_rejects_in_progress`: collection `"c"` of
`syncingDB` is marked `'syncing'`, and the call is rejected. -/
theorem sync_collection_rejects_in_progress_witness :
    sync_collection syncingDB [("outline", provA)] okEmbed "c" "outline" 9 =
      (syncingDB, ⟨"c", false, none, some "Sync already in progress"⟩) :=
  sync_collection_rejects_in_progress syncingDB [("outline", provA)] okEmbed "c"
    "outline" 9 ("outline", provA) ⟨"c", some 2, "syncing", none, 2⟩ rfl rfl rfl

/-! #### C10: a zero checkpoint behaves exactly like no checkpoint -/

theorem processDocs_of_falsy (lpa : Option ℚ) (h : truthyQ lpa = false)
    (gdoc : String → Except String UpstreamDocument)
    (embed : String → Except String (List ℚ)) (cid prov : String) (now : ℚ)
    (acc : PassAcc) (docs : List UpstreamDocument) :
    processDocs gdoc embed cid prov lpa now acc docs =
      (List.foldl (processSummary gdoc embed cid prov now) acc docs, true) := by
  induction docs generalizing acc with
  | nil => rfl
  | cons s rest ih =>
    unfold processDocs
    rw [h]
    simp only [Bool.false_and, Bool.false_eq_true, if_false, List.foldl_cons]
    exact ih _

theorem pullLoop_of_falsy (lpa : Option ℚ) (h : truthyQ lpa = false)
    (gdoc : String → Except String UpstreamDocument)
    (embed : String → Except String (List ℚ)) (cid prov : String) (now : ℚ)
    (limit : Nat) (acc : PassAcc) (off : Nat)
    (pages : List (Except String DocumentPage)) :
    pullLoop gdoc embed cid prov lpa now limit acc off pages =
      pullLoop gdoc embed cid prov none now limit acc off pages := by
  induction pages generalizing acc off with
  | nil => rfl
  | cons p rest ih =>
    cases p with
    | error e => rfl
    | ok page =>
      show pullLoop gdoc embed cid prov lpa now limit acc off (Except.ok page :: rest) = _
      unfold pullLoop
      dsimp only
      rw [processDocs_of_falsy lpa h, processDocs_of_falsy none rfl]
      by_cases hempty : page.documents.isEmpty
      · rw [if_pos hempty, if_pos hempty]
      · rw [if_neg hempty, if_neg hempty]
        dsimp only
        rw [if_pos rfl, if_pos rfl]
        split
        · exact ih _ _
        · rfl

/-- C10.  `pull_from_upstream` treats a checkpoint equal to `0` exactly
like a `None` checkpoint (the guard `if last_pull_at and ...` tests Python
truthiness, not presence): a pass with `last_pull_at = 0` is literally
equal to the pass with no checkpoint, and in particular (second conjunct)
for a listing containing one document with `updated_at = -1 ≤ 0` and a
zero checkpoint, early termination is disabled and that document is
examined, classified, and created. -/
theorem pull_zero_checkpoint_like_none (db : DB)
    (pages : List (Except String DocumentPage))
    (gdoc : String → Except String UpstreamDocument)
    (embed : String → Except String (List ℚ))
    (cid prov : String) (now : ℚ) :
    pull_from_upstream db pages gdoc embed cid prov (some 0) now =
      pull_from_upstream db pages gdoc embed cid prov none now ∧
    (pull_from_upstream emptyDB negDocPages negDocGetDoc okEmbed "c" "outline"
      (some 0) 5).2.created = 1 := by
  constructor
  · unfold pull_from_upstream
    dsimp only
    rw [pullLoop_of_falsy (some 0) (by decide)]
  · decide

/-! #### C9: idempotence against an unchanged upstream -/

theorem processDocs_stop_head (lpa : Option ℚ) {s : UpstreamDocument}
    (gdoc : String → Except String UpstreamDocument)
    (embed : String → Except String (List ℚ)) (cid prov : String) (now : ℚ)
    (acc : PassAcc) (rest : List UpstreamDocument)
    (hguard : (truthyQ lpa && decide (s.updated_at ≤ lpa.getD 0)) = true) :
    processDocs gdoc embed cid prov lpa now acc (s :: rest) = (acc, false) := by
  unfold processDocs
  rw [if_pos hguard]

/-- With a truthy checkpoint at least as new as every listed timestamp,
the pagination loop leaves the `created` and `updated` counters (and the
database) untouched: the guard fires on the very first summary. -/
theorem pullLoop_counters_all_le (lpa : Option ℚ)
    (gdoc : String → Except String UpstreamDocument)
    (embed : String → Except String (List ℚ)) (cid prov : String) (now : ℚ)
    (limit : Nat) (acc : PassAcc) (off : Nat)
    (pages : List (Except String DocumentPage))
    (hT : truthyQ lpa = true)
    (hle : ∀ pg ∈ pages, ∀ d ∈ pageDocs pg, d.updated_at ≤ lpa.getD 0) :
    (pullLoop gdoc embed cid prov lpa now limit acc off pages).created = acc.created ∧
    (pullLoop gdoc embed cid prov lpa now limit acc off pages).updated = acc.updated := by
  cases pages with
  | nil => exact ⟨rfl, rfl⟩
  | cons p rest =>
    cases p with
    | error e => exact ⟨rfl, rfl⟩
    | ok page =>
      show ((pullLoop gdoc embed cid prov lpa now limit acc off
        (Except.ok page :: rest)).created = acc.created) ∧ _
      unfold pullLoop
      dsimp only
      by_cases hempty : page.documents.isEmpty
      · rw [if_pos hempty]; exact ⟨rfl, rfl⟩
      · rw [if_neg hempty]
        obtain ⟨s, ds, hdocs⟩ : ∃ s ds, page.documents = s :: ds := by
          cases hd : page.documents with
          | nil => rw [hd] at hempty; exact absurd rfl hempty
          | cons s ds => exact ⟨s, ds, rfl⟩
        have hguard : (truthyQ lpa && decide (s.updated_at ≤ lpa.getD 0)) = true := by
          rw [hT, Bool.true_and]
          exact decide_eq_true (hle (Except.ok page) (List.mem_cons_self _ _) s
            (by rw [pageDocs, hdocs]; exact List.mem_cons_self _ _))
        rw [hdocs, processDocs_stop_head lpa gdoc embed cid prov now acc ds hguard]
        exact ⟨rfl, rfl⟩

/-- A whole pass with a truthy checkpoint at least as new as every listed
timestamp reports `created = 0` and `updated = 0`. -/
theorem pull_counters_all_le (lpa : Option ℚ) (db : DB)
    (pages : List (Except String DocumentPage))
    (gdoc : String → Except String UpstreamDocument)
    (embed : String → Except String (List ℚ))
    (cid prov : String) (now : ℚ)
    (hT : truthyQ lpa = true)
    (hle : ∀ pg ∈ pages, ∀ d ∈ pageDocs pg, d.updated_at ≤ lpa.getD 0) :
    (pull_from_upstream db pages gdoc embed cid prov lpa now).2.created = 0 ∧
    (pull_from_upstream db pages gdoc embed cid prov lpa now).2.updated = 0 := by
  unfold pull_from_upstream
  dsimp only
  exact pullLoop_counters_all_le lpa gdoc embed cid prov now 100
    ⟨db, 0, 0, 0, []⟩ 0 pages hT hle

/-- C9.  Reconciliation is idempotent against an unchanged upstream: if a
first pass completes with a nonzero wall clock `now₁` and every upstream
timestamp in the (unchanged) listing is at most `now₁`, then a second pass
run with the checkpoint the first pass stored (`storedCheckpoint`, with no
reset in between) returns `created = 0` and `updated = 0`. -/
theorem pull_second_pass_idempotent (db : DB)
    (pages : List (Except String DocumentPage))
    (gdoc : String → Except String UpstreamDocument)
    (embed : String → Except String (List ℚ))
    (cid prov : String) (t₀ : Option ℚ) (now₁ now₂ : ℚ)
    (h₁ : now₁ ≠ 0)
    (h₂ : ∀ pg ∈ pages, ∀ d ∈ pageDocs pg, d.updated_at ≤ now₁) :
    (pull_from_upstream (pull_from_upstream db pages gdoc embed cid prov t₀ now₁).1
        pages gdoc embed cid prov
        (storedCheckpoint (pull_from_upstream db pages gdoc embed cid prov t₀ now₁).1 cid)
        now₂).2.created = 0 ∧
    (pull_from_upstream (pull_from_upstream db pages gdoc embed cid prov t₀ now₁).1
        pages gdoc embed cid prov
        (storedCheckpoint (pull_from_upstream db pages gdoc embed cid prov t₀ now₁).1 cid)
        now₂).2.updated = 0 := by
  have hcp : storedCheckpoint (pull_from_upstream db pages gdoc embed cid prov t₀ now₁).1 cid
      = some now₁ := by
    unfold storedCheckpoint
    rw [pull_sync_state_find_aux]
  rw [hcp]
  exact pull_counters_all_le (some now₁)
    (pull_from_upstream db pages gdoc embed cid prov t₀ now₁).1 pages gdoc embed cid prov
    now₂ (decide_eq_true h₁) (by simpa using h₂)

/-- Witness for `pull_second_pass_idempotent`: a one-document listing with
timestamp `3`, first pass at wall clock `5`, second pass at `9`. -/
theorem pull_second_pass_idempotent_witness :
    (pull_from_upstream
        (pull_from_upstream emptyDB oneDocPages oneDocGetDoc okEmbed "c" "outline" none 5).1
        oneDocPages oneDocGetDoc okEmbed "c" "outline"
        (storedCheckpoint
          (pull_from_upstream emptyDB oneDocPages oneDocGetDoc okEmbed "c" "outline" none 5).1 "c")
        9).2.created = 0 ∧
    (pull_from_upstream
        (pull_from_upstream emptyDB oneDocPages oneDocGetDoc okEmbed "c" "outline" none 5).1
        oneDocPages oneDocGetDoc okEmbed "c" "outline"
        (storedCheckpoint
          (pull_from_upstream emptyDB oneDocPages oneDocGetDoc okEmbed "c" "outline" none 5).1 "c")
        9).2.updated = 0 :=
  pull_second_pass_idempotent emptyDB oneDocPages oneDocGetDoc okEmbed "c" "outline"
    none 5 9 (by decide) (by decide)

/-! #### C7: per-document error isolation -/

/-- C7.  A failure fetching a single document is caught: (first conjunct)
whenever the local lookup finds no record and `get_document` raises, the
document's accumulator gains exactly one error entry naming that
document's id and nothing else changes; (second conjunct) processing
always continues with the next summary when the early-termination guard
does not fire; (third conjunct) concretely, a provider listing four new
documents where fetching document `"3"` fails yields `created = 3`,
one error naming document 3, and documents 1, 2, 4 committed to the
store. -/
theorem pull_error_isolation :
    (∀ (gdoc : String → Except String UpstreamDocument)
        (embed : String → Except String (List ℚ))
        (cid prov : String) (now : ℚ) (acc : PassAcc) (s : UpstreamDocument) (e : String),
      findContentByUpstreamDocId acc.db s.id = none →
      gdoc s.id = Except.error e →
      processSummary gdoc embed cid prov now acc s =
        { acc with errors := acc.errors ++ ["Failed to sync " ++ s.id ++ ": " ++ e] }) ∧
    (∀ (gdoc : String → Except String UpstreamDocument)
        (embed : String → Except String (List ℚ))
        (cid prov : String) (now : ℚ) (acc : PassAcc)
        (s : UpstreamDocument) (rest : List UpstreamDocument),
      processDocs gdoc embed cid prov none now acc (s :: rest) =
        processDocs gdoc embed cid prov none now
          (processSummary gdoc embed cid prov now acc s) rest) ∧
    ((pull_from_upstream emptyDB fourDocPages fourDocGetDoc okEmbed
        "c" "outline" none 50).2.created = 3 ∧
     (pull_from_upstream emptyDB fourDocPages fourDocGetDoc okEmbed
        "c" "outline" none 50).2.updated = 0 ∧
     (pull_from_upstream emptyDB fourDocPages fourDocGetDoc okEmbed
        "c" "outline" none 50).2.errors = ["Failed to sync 3: boom"] ∧
     (pull_from_upstream emptyDB fourDocPages fourDocGetDoc okEmbed
        "c" "outline" none 50).1.content.map ContentRow.upstream_doc_id =
       [some "1", some "2", some "4"]) := by
  refine ⟨?_, ?_, ?_⟩
  · intro gdoc embed cid prov now acc s e hfind hdoc
    unfold processSummary
    rw [hfind, hdoc]
  · intro gdoc embed cid prov now acc s rest
    unfold processDocs
    rw [truthyQ]
    simp only [Bool.false_and, Bool.false_eq_true, if_false]
    cases rest <;> rfl
  · decide

/-- Witness for the hypotheses of `pull_error_isolation`: its first
conjunct applied to the four-document fixture at document `"3"`. -/
theorem pull_error_isolation_witness :
    processSummary fourDocGetDoc okEmbed "c" "outline" 50
        ⟨emptyDB, 0, 0, 0, []⟩ docC =
      { db := emptyDB, created := 0, updated := 0, skipped := 0,
        errors := ["Failed to sync 3: boom"] } := by
  have h := pull_error_isolation.1 fourDocGetDoc okEmbed "c" "outline" 50
    ⟨emptyDB, 0, 0, 0, []⟩ docC "boom" rfl rfl
  simpa using h

/-! #### C8: create / update / skip classification -/

/-- C8, counterexample.  A local record whose stored `upstream_updated_at`
is `0` — non-null and not strictly older than the incoming summary's
timestamp `0` — should be skipped per the claim, but the code's truthiness
test (`not local_doc["upstream_updated_at"]`) classifies it as an update:
the pass reports `updated = 1, skipped = 0`. -/
theorem pull_zero_ts_updates_not_skips :
    (pull_from_upstream zeroTsDB zeroDocPages zeroDocGetDoc okEmbed
        "c" "outline" none 9).2.updated = 1 ∧
    (pull_from_upstream zeroTsDB zeroDocPages zeroDocGetDoc okEmbed
        "c" "outline" none 9).2.skipped = 0 := by
  decide

/-- C8, amended.  For every summary processed in a pass (with the
document fetch and embedding succeeding where they are reached):
no local record → create (counted once, `create` log entry appended);
local record whose `upstream_updated_at` is null **or zero** (falsy) or
strictly older than the summary's → update (counted once, `update` log
entry appended); otherwise → skip, with no store write for that document
except the corrective `collection_id` backfill.  Consequently three
brand-new documents under a `None` checkpoint yield
`created = 3, updated = 0, skipped = 0, errors = []`. -/
theorem pull_classification :
    (∀ (gdoc : String → Except String UpstreamDocument)
        (embed : String → Except String (List ℚ))
        (cid prov : String) (now : ℚ) (acc : PassAcc) (s : UpstreamDocument)
        (d : UpstreamDocument) (v : List ℚ),
      findContentByUpstreamDocId acc.db s.id = none →
      gdoc s.id = Except.ok d → embed d.content = Except.ok v →
      (processSummary gdoc embed cid prov now acc s).created = acc.created + 1 ∧
      (processSummary gdoc embed cid prov now acc s).updated = acc.updated ∧
      (processSummary gdoc embed cid prov now acc s).skipped = acc.skipped ∧
      (processSummary gdoc embed cid prov now acc s).errors = acc.errors ∧
      (processSummary gdoc embed cid prov now acc s).db.sync_log =
        acc.db.sync_log ++ [⟨cid, "create", s.id⟩]) ∧
    (∀ (gdoc : String → Except String UpstreamDocument)
        (embed : String → Except String (List ℚ))
        (cid prov : String) (now : ℚ) (acc : PassAcc) (s : UpstreamDocument)
        (r : ContentRow) (d : UpstreamDocument) (v : List ℚ),
      findContentByUpstreamDocId acc.db s.id = some r →
      (!truthyQ r.upstream_updated_at ||
        decide (r.upstream_updated_at.getD 0 < s.updated_at)) = true →
      gdoc s.id = Except.ok d → embed d.content = Except.ok v →
      (processSummary gdoc embed cid prov now acc s).updated = acc.updated + 1 ∧
      (processSummary gdoc embed cid prov now acc s).created = acc.created ∧
      (processSummary gdoc embed cid prov now acc s).skipped = acc.skipped ∧
      (processSummary gdoc embed cid prov now acc s).errors = acc.errors ∧
      (processSummary gdoc embed cid prov now acc s).db.sync_log =
        acc.db.sync_log ++ [⟨cid, "update", s.id⟩]) ∧
    (∀ (gdoc : String → Except String UpstreamDocument)
        (embed : String → Except String (List ℚ))
        (cid prov : String) (now : ℚ) (acc : PassAcc) (s : UpstreamDocument)
        (r : ContentRow),
      findContentByUpstreamDocId acc.db s.id = some r →
      (!truthyQ r.upstream_updated_at ||
        decide (r.upstream_updated_at.getD 0 < s.updated_at)) = false →
      processSummary gdoc embed cid prov now acc s =
        { acc with
          db := if !truthyStr r.collection_id then
              backfillCollectionId acc.db r.id cid now
            else acc.db,
          skipped := acc.skipped + 1 }) ∧
    (pull_from_upstream emptyDB threeDocPages fourDocGetDocOk okEmbed
        "c" "outline" none 50).2 = ⟨3, 0, 0, []⟩ := by
  refine ⟨?_, ?_, ?_, ?_⟩
  · intro gdoc embed cid prov now acc s d v hfind hdoc hemb
    unfold processSummary
    rw [hfind, hdoc]
    dsimp only
    unfold create_local_document
    rw [hemb]
    simp [insertSyncLog, Except.map]
  · intro gdoc embed cid prov now acc s r d v hfind hcls hdoc hemb
    unfold processSummary
    rw [hfind]
    dsimp only
    rw [hcls]
    simp only [Bool.not_true, Bool.false_eq_true, if_false]
    rw [hdoc]
    dsimp only
    unfold update_local_document
    rw [hemb]
    simp only [insertSyncLog, Except.map]
    refine ⟨trivial, trivial, trivial, trivial, ?_⟩
    split <;> rfl
  · intro gdoc embed cid prov now acc s r hfind hcls
    unfold processSummary
    rw [hfind]
    dsimp only
    rw [hcls]
    simp only [Bool.not_false, if_true]
  · decide

/-- Witness for the hypotheses of `pull_classification`: the create case
at the fresh document `"1"`, and the skip case at the zero-timestamp
fixture with a strictly-newer guard that evaluates to false. -/
theorem pull_classification_witness :
    (processSummary fourDocGetDocOk okEmbed "c" "outline" 50
        ⟨emptyDB, 0, 0, 0, []⟩ docA).created = 0 + 1 ∧
    (processSummary zeroDocGetDoc okEmbed "c" "outline" 9
        ⟨{ zeroTsDB with
            content := [⟨1, "outline", some "z", some "c", "tz", "bz", some "z", some 3, 2⟩] },
          0, 0, 0, []⟩ ⟨"z", "tz", "bz", 3⟩) =
      { db := { zeroTsDB with
          content := [⟨1, "outline", some "z", some "c", "tz", "bz", some "z", some 3, 2⟩] },
        created := 0, updated := 0, skipped := 0 + 1, errors := [] } := by
  constructor
  · exact (pull_classification.1 fourDocGetDocOk okEmbed "c" "outline" 50
      ⟨emptyDB, 0, 0, 0, []⟩ docA docA [1] rfl rfl rfl).1
  · have h := pull_classification.2.2.1 zeroDocGetDoc okEmbed "c" "outline" 9
      ⟨{ zeroTsDB with
          content := [⟨1, "outline", some "z", some "c", "tz", "bz", some "z", some 3, 2⟩] },
        0, 0, 0, []⟩ ⟨"z", "tz", "bz", 3⟩
      ⟨1, "outline", some "z", some "c", "tz", "bz", some "z", some 3, 2⟩
      rfl (by decide)
    simpa using h

/-! #### C3: provider iteration during full resync -/

/-- C3, counterexample.  During `full_resync` of collection `"c"` against
registry `[A, B]` where `A`'s listing is empty (successful sync, `created
= 0`, `updated = 0`) and `B` owns one document: the iteration stops at `A`
— only `A` appears in `collection_results` and `B`'s document is never
created, although a `sync_collection` against `B` would have created it
(last conjunct).  This refutes "a provider whose sync succeeds but reports
created = 0 and updated = 0 does not stop the iteration". -/
theorem full_resync_stops_on_zero_success :
    (full_resync emptyDB resyncRegistry okEmbed ["c"] 5).collection_results =
      [CollEntry.ok "c" "A" 0 0 0] ∧
    (full_resync emptyDB resyncRegistry okEmbed ["c"] 5).total_created = 0 ∧
    (full_resync emptyDB resyncRegistry okEmbed ["c"] 5).db.content = [] ∧
    (sync_collection (wipeDB emptyDB) resyncRegistry okEmbed "c" "B" 5).2.result =
      some ⟨1, 0, 0, []⟩ := by
  decide

/-- C3, amended.  For every target collection during `full_resync`, the
registered providers are tried in order and iteration stops exactly at the
first provider whose sync is *successful* (error-free) — regardless of its
`created`/`updated` counts: the stats entry is recorded, the totals are
accumulated, `synced` is set, and no later provider is tried. -/
theorem resync_stops_at_first_success
    (registry : List (String × Provider))
    (embed : String → Except String (List ℚ))
    (cid : String) (now : ℚ) (acc : ResyncAcc) (n : String) (rest : List String)
    (r : PullResult)
    (hs : (sync_collection acc.db registry embed cid n now).2.success = true)
    (hr : (sync_collection acc.db registry embed cid n now).2.result = some r) :
    resyncTryProviders registry embed cid now acc (n :: rest) =
      { acc with
        db := (sync_collection acc.db registry embed cid n now).1,
        collection_results := acc.collection_results ++
          [.ok cid n r.created r.updated r.errors.length],
        total_created := acc.total_created + r.created,
        total_updated := acc.total_updated + r.updated,
        total_errors := acc.total_errors + r.errors.length,
        synced := true } := by
  unfold resyncTryProviders
  dsimp only
  rw [hr]
  dsimp only
  rw [if_pos hs]

/-- Witness for `resync_stops_at_first_success`: provider `"A"` (empty
listing, error-free sync) stops the iteration before `"B"`. -/
theorem resync_stops_at_first_success_witness :
    resyncTryProviders resyncRegistry okEmbed "c" 5
        ⟨wipeDB emptyDB, 0, 0, 0, [], false⟩ ["A", "B"] =
      { db := (sync_collection (wipeDB emptyDB) resyncRegistry okEmbed "c" "A" 5).1,
        total_created := 0 + 0,
        total_updated := 0 + 0,
        total_errors := 0 + 0,
        collection_results := [] ++ [.ok "c" "A" 0 0 0],
        synced := true } :=
  resync_stops_at_first_success resyncRegistry okEmbed "c" 5
    ⟨wipeDB emptyDB, 0, 0, 0, [], false⟩ "A" ["B"] ⟨0, 0, 0, []⟩
    (by decide) (by decide)

/-! #### C4: early termination under a checkpoint -/

theorem takeWhile_append_of_all {α : Type} (p : α → Bool) {l₁ : List α} (l₂ : List α)
    (h : ∀ a ∈ l₁, p a = true) :
    (l₁ ++ l₂).takeWhile p = l₁ ++ l₂.takeWhile p := by
  induction l₁ with
  | nil => rfl
  | cons a l ih =>
    rw [List.cons_append, List.takeWhile_cons, h a (List.mem_cons_self _ _)]
    simp only [if_true, List.cons_append, List.cons.injEq, true_and]
    exact ih (fun b hb => h b (List.mem_cons_of_mem _ hb))

theorem takeWhile_of_all {α : Type} (p : α → Bool) {l : List α}
    (h : ∀ a ∈ l, p a = true) : l.takeWhile p = l := by
  induction l with
  | nil => rfl
  | cons a l ih =>
    rw [List.takeWhile_cons, h a (List.mem_cons_self _ _)]
    simp only [if_true, List.cons.injEq, true_and]
    exact ih (fun b hb => h b (List.mem_cons_of_mem _ hb))

theorem takeWhile_append_of_not_all {α : Type} (p : α → Bool) {l₁ : List α} (l₂ : List α)
    (h : l₁.all p = false) :
    (l₁ ++ l₂).takeWhile p = l₁.takeWhile p := by
  induction l₁ with
  | nil => exact absurd h (by simp)
  | cons a l ih =>
    rw [List.all_cons] at h
    cases hpa : p a with
    | false =>
      rw [List.cons_append, List.takeWhile_cons, hpa, List.takeWhile_cons, hpa]
      rfl
    | true =>
      rw [hpa, Bool.true_and] at h
      rw [List.cons_append, List.takeWhile_cons, hpa, List.takeWhile_cons, hpa]
      simp only [if_true, List.cons.injEq, true_and]
      exact ih h

theorem docsOf_cons (p : Except String DocumentPage)
    (rest : List (Except String DocumentPage)) :
    docsOf (p :: rest) = pageDocs p ++ docsOf rest := by
  simp [docsOf]

theorem wfPages_error {e : String} {rest : List (Except String DocumentPage)}
    (h : wfPages (Except.error e :: rest) = true) : False := by
  cases rest with
  | nil => exact Bool.noConfusion h
  | cons q qs => exact Bool.noConfusion h

theorem wfPages_cons_ok {page : DocumentPage} {rest : List (Except String DocumentPage)}
    (h : wfPages (Except.ok page :: rest) = true) :
    page.documents.isEmpty = false ∧
      (rest = [] ∨ (page.has_more = true ∧ wfPages rest = true)) := by
  cases rest with
  | nil =>
    have h' : (!page.documents.isEmpty) = true := h
    exact ⟨by simpa using h', Or.inl rfl⟩
  | cons q qs =>
    have h' : (!page.documents.isEmpty && page.has_more && wfPages (q :: qs)) = true := h
    simp only [Bool.and_eq_true, Bool.not_eq_true'] at h'
    exact ⟨h'.1.1, Or.inr ⟨h'.1.2, h'.2⟩⟩

theorem processDocs_eq_takeWhile (lpa : Option ℚ) (hT : truthyQ lpa = true)
    (gdoc : String → Except String UpstreamDocument)
    (embed : String → Except String (List ℚ)) (cid prov : String) (now : ℚ)
    (acc : PassAcc) (docs : List UpstreamDocument) :
    processDocs gdoc embed cid prov lpa now acc docs =
      (List.foldl (processSummary gdoc embed cid prov now) acc
        (docs.takeWhile (fun d => !decide (d.updated_at ≤ lpa.getD 0))),
       docs.all (fun d => !decide (d.updated_at ≤ lpa.getD 0))) := by
  induction docs generalizing acc with
  | nil => rfl
  | cons s rest ih =>
    unfold processDocs
    rw [hT, Bool.true_and]
    cases hs : decide (s.updated_at ≤ lpa.getD 0) with
    | false =>
      simp only [hs, Bool.false_eq_true, if_false, List.takeWhile_cons, Bool.not_false,
        if_true, List.foldl_cons, List.all_cons, Bool.true_and]
      exact ih _
    | true =>
      simp only [hs, if_true, List.takeWhile_cons, Bool.not_true, Bool.false_eq_true,
        if_false, List.foldl_nil, List.all_cons, Bool.false_and]

theorem pullLoop_eq_takeWhile (lpa : Option ℚ) (hT : truthyQ lpa = true)
    (gdoc : String → Except String UpstreamDocument)
    (embed : String → Except String (List ℚ)) (cid prov : String) (now : ℚ)
    (limit : Nat) (acc : PassAcc) (off : Nat)
    (pages : List (Except String DocumentPage)) (hwf : wfPages pages = true) :
    pullLoop gdoc embed cid prov lpa now limit acc off pages =
      List.foldl (processSummary gdoc embed cid prov now) acc
        ((docsOf pages).takeWhile (fun d => !decide (d.updated_at ≤ lpa.getD 0))) := by
  revert hwf
  induction pages generalizing acc off with
  | nil => intro hwf; rfl
  | cons p rest ih =>
    intro hwf
    cases p with
    | error e => exact (wfPages_error hwf).elim
    | ok page =>
      obtain ⟨hne, hrest⟩ := wfPages_cons_ok hwf
      show pullLoop gdoc embed cid prov lpa now limit acc off (Except.ok page :: rest) = _
      unfold pullLoop
      dsimp only
      rw [if_neg (by simp [hne])]
      rw [processDocs_eq_takeWhile lpa hT]
      dsimp only
      rw [docsOf_cons]
      dsimp only [pageDocs]
      by_cases hall :
          (page.documents.all (fun d => !decide (d.updated_at ≤ lpa.getD 0))) = true
      · have hmem : ∀ a ∈ page.documents,
            (fun d : UpstreamDocument => !decide (d.updated_at ≤ lpa.getD 0)) a = true :=
          List.all_eq_true.mp hall
        rw [if_pos hall, takeWhile_append_of_all _ _ hmem, List.foldl_append,
          takeWhile_of_all _ hmem]
        rcases hrest with rfl | ⟨hmore, hwrest⟩
        · cases page.has_more <;> rfl
        · rw [if_pos hmore]
          exact ih _ _ hwrest
      · have hall' : (page.documents.all (fun d => !decide (d.updated_at ≤ lpa.getD 0))) = false := by
          simpa using hall
        rw [if_neg hall, takeWhile_append_of_not_all _ _ hall']

/-- C4, counterexample.  With the non-null checkpoint `T = 0` (falsy under
the guard's truthiness test) and a listing containing one document with
`updated_at = 0 ≤ T`, paging does not stop and that document *is* written:
the pass creates a `ContentRecord` for it, refuting the claim for `T = 0`. -/
theorem pull_zero_checkpoint_still_writes :
    (pull_from_upstream emptyDB zeroDocPages zeroDocGetDoc okEmbed
        "c" "outline" (some 0) 7).2.created = 1 ∧
    (pull_from_upstream emptyDB zeroDocPages zeroDocGetDoc okEmbed
        "c" "outline" (some 0) 7).1.content.map ContentRow.upstream_doc_id =
      [some "z"] := by
  decide

/-- C4, amended.  For every reconciliation pass with a non-null **nonzero**
checkpoint `T` over a well-formed provider listing sorted descending by
`updated_at`, the pass equals the pass over exactly the prefix of
summaries with timestamp `> T` (so paging stops at the first summary with
timestamp `≤ T`, and no document with `updated_at ≤ T` is ever examined or
causes a `ContentRecord`, `EmbeddingVector`, or `SyncLogEntry` write);
every summary of that prefix has timestamp strictly above `T` (second
conjunct). -/
theorem pull_early_termination (db : DB)
    (pages : List (Except String DocumentPage))
    (gdoc : String → Except String UpstreamDocument)
    (embed : String → Except String (List ℚ))
    (cid prov : String) (T now : ℚ)
    (hT : T ≠ 0) (hwf : wfPages pages = true)
    (hsort : sortedDescB (docsOf pages) = true) :
    pull_from_upstream db pages gdoc embed cid prov (some T) now =
      reconcileDocs db
        ((docsOf pages).takeWhile (fun d => !decide (d.updated_at ≤ T)))
        gdoc embed cid prov now ∧
    ∀ d ∈ (docsOf pages).takeWhile (fun d => !decide (d.updated_at ≤ T)),
      T < d.updated_at := by
  constructor
  · unfold pull_from_upstream reconcileDocs
    dsimp only
    rw [pullLoop_eq_takeWhile (some T) (decide_eq_true hT) gdoc embed cid prov now 100
      ⟨db, 0, 0, 0, []⟩ 0 pages hwf]
    simp only [Option.getD_some]
  · intro d hd
    have hp := List.mem_takeWhile_imp hd
    simp only [Bool.not_eq_true', decide_eq_false_iff_not, not_le] at hp
    exact hp

/-- Witness for `pull_early_termination`: checkpoint `T = 5` over the
one-document listing (timestamp `3 ≤ 5`): the prefix of summaries newer
than the checkpoint is empty and the pass only writes the checkpoint. -/
theorem pull_early_termination_witness :
    pull_from_upstream emptyDB oneDocPages oneDocGetDoc okEmbed
        "c" "outline" (some 5) 7 =
      reconcileDocs emptyDB
        ((docsOf oneDocPages).takeWhile (fun d => !decide (d.updated_at ≤ 5)))
        oneDocGetDoc okEmbed "c" "outline" 7 :=
  (pull_early_termination emptyDB oneDocPages oneDocGetDoc okEmbed "c" "outline" 5 7
    (by decide) (by decide) (by decide)).1

end PersonalContext
